import Mathlib

/-!
# Verification of the spatial layout core of `ai-interior-designer`

Shallow embedding of the layout worker (`src/workers/layout-worker/main.py`,
`src/workers/layout-worker/constraint_solver.py`) and the validate worker
(`src/workers/validate-worker/main.py`), with theorems settling the frozen
claims about collisions, clearances, accessibility, the navigation heatmap,
the catalog filter, the budget boundary case and progress monotonicity.

Conventions of the embedding:
* The validator works on axis-aligned rectangles: every rotation appearing in
  the code is a multiple of 90 degrees, under which the rotated rectangle of
  `create_furniture_geometries` is again axis-aligned (with width and depth
  swapped for 90 and 270 degrees).  Rotation is therefore modelled exactly as
  an element of `Fin 4` (`k` standing for `90*k` degrees).
* Real-valued coordinates and areas are modelled by `ℚ`; Euclidean distances
  are carried as their squares (`ℚ`), since every comparison the code makes
  against a distance threshold `t` is equivalent to comparing the squared
  distance against `t^2`.  The only place where the distance itself enters a
  result value (the navigation heatmap's linear band) uses `Real.sqrt`.
* Python's `round(x, 3)` (round half to even on the third decimal) is
  modelled exactly on `ℚ` by `roundHalfEven`.
-/

namespace InteriorDesigner

/-! ## Geometry primitives

Axis-aligned rectangles with rational endpoints, as produced by
`create_furniture_geometries` in `src/workers/validate-worker/main.py` and by
the claim C1 interpretation of solver output. -/

/-- Axis-aligned rectangle `[xlo, xhi] × [ylo, yhi]` with rational corners. -/
structure RectQ where
  xlo : ℚ
  xhi : ℚ
  ylo : ℚ
  yhi : ℚ
  deriving DecidableEq, Repr

/-- Overlap length of the closed intervals `[a1, b1]` and `[a2, b2]`,
clamped at `0`. -/
def interLen (a1 b1 a2 b2 : ℚ) : ℚ := max 0 (min b1 b2 - max a1 a2)

/-- Area of the intersection of two axis-aligned rectangles
(shapely's `intersection(...).area` for two such polygons). -/
def interArea (r s : RectQ) : ℚ :=
  interLen r.xlo r.xhi s.xlo s.xhi * interLen r.ylo r.yhi s.ylo s.yhi

/-- Closed-set intersection test for two axis-aligned rectangles: shapely's
`intersects` is true exactly when the closed polygons share at least one
point, which for axis-aligned rectangles means the projections overlap on
both axes (touching counts). -/
def rectIntersects (r s : RectQ) : Bool :=
  max r.xlo s.xlo ≤ min r.xhi s.xhi ∧ max r.ylo s.ylo ≤ min r.yhi s.yhi

/-- Squared Euclidean distance from a point to a closed axis-aligned
rectangle (square of shapely's point-to-polygon `distance`). -/
def pointRectDistSq (px py : ℚ) (r : RectQ) : ℚ :=
  let dx := max (r.xlo - px) (max 0 (px - r.xhi))
  let dy := max (r.ylo - py) (max 0 (py - r.yhi))
  dx * dx + dy * dy

/-- Squared Euclidean distance between two points. -/
def pointDistSq (px py qx qy : ℚ) : ℚ :=
  (px - qx) * (px - qx) + (py - qy) * (py - qy)

/-- All ordered pairs `(l[i], l[j])` with `i < j`, in the nested-loop order
`for i ...: for j in l[i+1:]` used throughout the validator. -/
def allPairs {α : Type} : List α → List (α × α)
  | [] => []
  | a :: rest => rest.map (fun b => (a, b)) ++ allPairs rest

/-! ## Validator: furniture geometry and collision detection

`create_furniture_geometries` builds, for each placement, a rectangle of the
item's width and depth **centered** at the placement's `(x, y)`, rotated by
the placement's rotation.  For rotations that are multiples of 90 degrees the
result is the axis-aligned rectangle below (width and depth swap at 90/270). -/

/-- A furniture placement as consumed by the validator: position (meters),
footprint dimensions (meters) and a quarter-turn rotation. -/
structure PlacementQ where
  x : ℚ
  y : ℚ
  width : ℚ
  depth : ℚ
  rot : Fin 4
  deriving DecidableEq, Repr

/-- Effective axis-aligned dimensions of a `width × depth` rectangle rotated
by `90 * rot` degrees. -/
def rotatedDims (width depth : ℚ) (rot : Fin 4) : ℚ × ℚ :=
  if rot = 1 ∨ rot = 3 then (depth, width) else (width, depth)

/-- The validator's footprint of a placement: rectangle of the rotated
dimensions centered at `(x, y)` (`create_furniture_geometries`). -/
def placementRect (p : PlacementQ) : RectQ :=
  let wd := rotatedDims p.width p.depth p.rot
  ⟨p.x - wd.1 / 2, p.x + wd.1 / 2, p.y - wd.2 / 2, p.y + wd.2 / 2⟩

/-- The furniture-to-furniture part of `check_collisions`: every ordered pair
`(i, j)` with `i < j` whose geometries `intersects` is recorded as a
collision pair, together with the overlap area. -/
def checkCollisionPairs (l : List RectQ) : List (RectQ × RectQ) :=
  (allPairs l).filter (fun p => rectIntersects p.1 p.2)

/-- Overlap area recorded for a collision pair. -/
def overlapArea (p : RectQ × RectQ) : ℚ := interArea p.1 p.2

/-- Severity recorded for a collision pair:
`"high" if overlap_area > 0.1 else "medium"`. -/
def severityHigh (p : RectQ × RectQ) : Bool := overlapArea p > 1/10

/-- The validator's collision tolerance `EPS = 1e-6` (square meters). -/
def EPS : ℚ := 1/1000000

/-! ## Validator: overall score (`calculate_overall_score`) -/

/-- Round half to even, Python's `round(x)` semantics on a rational. -/
def roundHalfEven (x : ℚ) : ℤ :=
  if x - ⌊x⌋ < 1/2 then ⌊x⌋
  else if x - ⌊x⌋ > 1/2 then ⌊x⌋ + 1
  else if Even ⌊x⌋ then ⌊x⌋ else ⌊x⌋ + 1

/-- Python's `round(x, 3)`. -/
def round3 (x : ℚ) : ℚ := (roundHalfEven (1000 * x) : ℚ) / 1000

/-- Embedding of `calculate_overall_score` from
`src/workers/validate-worker/main.py`: penalties `min(1, 0.2·total_collisions)`
and `min(1, 0.1·total_issues)` applied multiplicatively to the accessibility
score, clamped below at `0` and rounded to three decimals. -/
def calculateOverallScore (totalCollisions totalIssues : ℕ) (baseScore : ℚ) : ℚ :=
  let collisionPenalty := min 1 ((totalCollisions : ℚ) * (1/5))
  let clearancePenalty := min 1 ((totalIssues : ℚ) * (1/10))
  let finalScore := baseScore * (1 - collisionPenalty) * (1 - clearancePenalty)
  round3 (max 0 finalScore)

/-! ## Validator: accessibility (`analyze_accessibility`) -/

/-- Arithmetic mean of a list (`np.mean`). -/
def listMean (l : List ℚ) : ℚ := l.sum / l.length

/-- A door (or window) is blocked when some furniture geometry is closer
than the threshold to the door point; the code loops with an early `break`,
which is `List.any`.  The comparison `distance < t` is carried as
`distSq < t^2`. -/
def blockedBy (px py : ℚ) (thresholdSq : ℚ) (furniture : List RectQ) : Bool :=
  furniture.any (fun r => pointRectDistSq px py r < thresholdSq)

/-- Per-door access scores: `0.0` when blocked (threshold 0.8 m), else
`1.0`. -/
def doorAccessScores (doors : List (ℚ × ℚ)) (furniture : List RectQ) : List ℚ :=
  doors.map (fun d => if blockedBy d.1 d.2 (16/25) furniture then 0 else 1)

/-- Per-window access scores: `0.0` when blocked (threshold 0.6 m), else
`1.0`. -/
def windowAccessScores (windows : List (ℚ × ℚ)) (furniture : List RectQ) : List ℚ :=
  windows.map (fun w => if blockedBy w.1 w.2 (9/25) furniture then 0 else 1)

/-- Door accessibility:
`np.mean(door_access_scores) if door_access_scores else 1.0`. -/
def doorAccessibility (doors : List (ℚ × ℚ)) (furniture : List RectQ) : ℚ :=
  if doorAccessScores doors furniture = [] then 1
  else listMean (doorAccessScores doors furniture)

/-- Window accessibility:
`np.mean(window_access_scores) if window_access_scores else 1.0`. -/
def windowAccessibility (windows : List (ℚ × ℚ)) (furniture : List RectQ) : ℚ :=
  if windowAccessScores windows furniture = [] then 1
  else listMean (windowAccessScores windows furniture)

/-- Flow efficiency `min(1.0, walkable_area / (room_area * 0.4))`. -/
def flowEfficiency (walkableArea roomArea : ℚ) : ℚ :=
  min 1 (walkableArea / (roomArea * (2/5)))

/-- The accessibility `score` returned by `analyze_accessibility`:
`round(door*0.5 + window*0.3 + flow*0.2, 3)`. -/
def accessibilityScore (doorScore windowScore flowEff : ℚ) : ℚ :=
  round3 (doorScore * (1/2) + windowScore * (3/10) + flowEff * (1/5))

/-- Center of an axis-aligned rectangle (shapely `centroid` of the
rectangle polygon). -/
def rectCenter (r : RectQ) : ℚ × ℚ := ((r.xlo + r.xhi) / 2, (r.ylo + r.yhi) / 2)

/-- Claim-side definition for C6, following the spec's words rather than the
source: a door or window is blocked when some placement's **centroid** is
within the threshold of the door point (squared-distance comparison). -/
def blockedByCentroidSpec (px py : ℚ) (thresholdSq : ℚ) (furniture : List RectQ) : Bool :=
  furniture.any (fun r =>
    pointDistSq px py (rectCenter r).1 (rectCenter r).2 < thresholdSq)

/-! ## Validator: navigation heatmap (`generate_navigation_heatmap`)

The room polygon on the main path of `parse_room_geometry` is the rectangle
of the floor plan's `bounds`; shapely's `contains(point)` for that polygon is
true exactly when the point lies in the open interior.  Cell `(i, j)` is
sampled at `(minx + j*0.2, miny + i*0.2)` (the spec calls this point the cell
center).  The nearest-furniture distance is carried as its square, and the
branch tests `d < 0.3` / `d > 1.5` become `dsq < 0.09` / `dsq > 2.25`; only
the linear band needs the distance itself, via `Real.sqrt`. -/

/-- Axis-aligned room bounds in meters, as in the floor plan's `bounds`. -/
structure BoundsQ where
  minX : ℚ
  minY : ℚ
  maxX : ℚ
  maxY : ℚ
  deriving DecidableEq

/-- Strict interior membership in the bounds rectangle: shapely's
`room_polygon.contains(Point(x, y))` for the bounds polygon. -/
def inRoomOpen (b : BoundsQ) (x y : ℚ) : Prop :=
  b.minX < x ∧ x < b.maxX ∧ b.minY < y ∧ y < b.maxY

instance (b : BoundsQ) (x y : ℚ) : Decidable (inRoomOpen b x y) := by
  unfold inRoomOpen; infer_instance

/-- Closed membership in the bounds rectangle: the natural reading of a
point being on or inside (not outside) the room polygon. -/
def inRoomClosed (b : BoundsQ) (x y : ℚ) : Prop :=
  b.minX ≤ x ∧ x ≤ b.maxX ∧ b.minY ≤ y ∧ y ≤ b.maxY

/-- Minimum squared distance from a point to the furniture geometries;
`none` when there is no furniture (the code's `min_distance` stays `inf`,
which falls into the `> 1.5` branch). -/
def minDistSqTo (p : ℚ × ℚ) : List RectQ → Option ℚ
  | [] => none
  | r :: rs =>
    match minDistSqTo p rs with
    | none => some (pointRectDistSq p.1 p.2 r)
    | some m => some (min (pointRectDistSq p.1 p.2 r) m)

/-- Navigation score of an in-room cell given the squared nearest-furniture
distance: `0.0` below 0.3 m, `1.0` above 1.5 m (also when no furniture
exists), else the linear band `(d − 0.3)/1.2`. -/
noncomputable def heatValue (dOpt : Option ℚ) : ℝ :=
  match dOpt with
  | none => 1
  | some dsq =>
    if dsq < 9/100 then 0
    else if 9/4 < dsq then 1
    else (Real.sqrt (dsq : ℝ) - 3/10) / (6/5)

/-- Value of heatmap cell `(i, j)` in `generate_navigation_heatmap`:
`-1` when the sample point is not strictly inside the room polygon, else the
navigation score of its nearest-furniture distance. -/
noncomputable def heatCell (b : BoundsQ) (furniture : List RectQ) (i j : ℕ) : ℝ :=
  let x := b.minX + (j : ℚ) * (1/5)
  let y := b.minY + (i : ℚ) * (1/5)
  if inRoomOpen b x y then heatValue (minDistSqTo (x, y) furniture) else -1

/-! ## Layout worker: catalog generation and filtering

Embedding of `generate_furniture_catalog` from
`src/workers/layout-worker/main.py`.  Dimensions are in meters; `priority`
and `price_cents` are integers.  The Python guard `if budget_cents:` treats
both `None` and `0` as absent, which the embedding mirrors exactly. -/

/-- A catalog item with the fields the filter inspects. -/
structure CatalogItem where
  id : String
  width : ℚ
  depth : ℚ
  price_cents : ℤ
  style_tags : List String
  priority : ℤ
  deriving DecidableEq

/-- The hardcoded base catalog of `generate_furniture_catalog` (fields not
inspected by the filter are omitted). -/
def baseCatalog : List CatalogItem :=
  [ ⟨"sofa_3seat", 228/100, 95/100, 79900, ["modern", "traditional"], 1⟩,
    ⟨"armchair", 4/5, 17/20, 39900, ["modern", "traditional", "minimalist"], 2⟩,
    ⟨"coffee_table", 6/5, 3/5, 24999, ["modern", "minimalist"], 2⟩,
    ⟨"side_table", 1/2, 1/2, 12999, ["modern", "traditional"], 3⟩,
    ⟨"tv_stand", 3/2, 2/5, 34999, ["modern", "minimalist"], 2⟩,
    ⟨"bookshelf", 4/5, 3/10, 29999, ["traditional", "modern"], 3⟩,
    ⟨"desk", 6/5, 3/5, 45999, ["modern", "minimalist"], 2⟩,
    ⟨"office_chair", 3/5, 3/5, 25999, ["modern", "ergonomic"], 2⟩ ]

/-- Style stage of `generate_furniture_catalog`: keep items sharing a style
tag with the preferences, but fall back to the whole catalog when the filter
would empty it (or when no preferences are given). -/
def styleStage (stylePrefs : List String) (catalog : List CatalogItem) : List CatalogItem :=
  if stylePrefs ≠ [] then
    if catalog.filter
        (fun item => stylePrefs.any (fun s => item.style_tags.contains s)) ≠ [] then
      catalog.filter (fun item => stylePrefs.any (fun s => item.style_tags.contains s))
    else catalog
  else catalog

/-- Budget stage of `generate_furniture_catalog`: drop items with
`price_cents > 0.4 * budget`, but only under `if budget_cents:` — Python
truthiness, so the stage is skipped when the budget is `None` **or** `0`. -/
def budgetStage (budget : Option ℤ) (catalog : List CatalogItem) : List CatalogItem :=
  match budget with
  | some b =>
    if b ≠ 0 then
      catalog.filter (fun item => (item.price_cents : ℚ) ≤ (b : ℚ) * (2/5))
    else catalog
  | none => catalog

/-- Room-size stage of `generate_furniture_catalog`: in rooms under 15 m²
keep only items with footprint area under 2 m². -/
def areaStage (area : ℚ) (catalog : List CatalogItem) : List CatalogItem :=
  if area < 15 then
    catalog.filter (fun item => item.width * item.depth < 2)
  else catalog

/-- The filtering stages of `generate_furniture_catalog` over an arbitrary
input catalog, in source order: style, then budget, then room size. -/
def catalogFilter (catalog : List CatalogItem) (stylePrefs : List String)
    (budget : Option ℤ) (area : ℚ) : List CatalogItem :=
  areaStage area (budgetStage budget (styleStage stylePrefs catalog))

/-- Embedding of `generate_furniture_catalog` applied to the hardcoded base
catalog. -/
def generateFurnitureCatalog (stylePrefs : List String) (budget : Option ℤ)
    (area : ℚ) : List CatalogItem :=
  catalogFilter baseCatalog stylePrefs budget area

/-! ## Layout worker: strategy placements (`generate_layout_solution`)

Each strategy places a fixed set of items at fixed coordinates; an item is
present exactly when the filtered catalog contains its id (the code's
`next((f for f in furniture_catalog if f["id"] == ...), None)` lookups).
The booleans below stand for those membership tests; dimensions come from
the base catalog entries, with which `post_process_layout` enriches the
placements.  Rotation `k : Fin 4` stands for `90*k` degrees. -/

/-- Placements of the `conversation_focused` strategy.  Sofa at
`(1.0, 0.5)` rot 0, coffee table at `(1.0, 1.8)` rot 0, armchair at
`(3.5, 1.0)` rot 270. -/
def conversationPlacements (hasSofa hasCoffee hasArmchair : Bool) : List PlacementQ :=
  (if hasSofa then [⟨1, 1/2, 228/100, 95/100, 0⟩] else []) ++
  (if hasCoffee then [⟨1, 9/5, 6/5, 3/5, 0⟩] else []) ++
  (if hasArmchair then [⟨7/2, 1, 4/5, 17/20, 3⟩] else [])

/-- Placements of the `work_focused` strategy.  Desk at `(4.0, 1.0)` rot 90,
office chair at `(3.2, 1.0)` rot 90, sofa at `(1.0, 2.5)` rot 0. -/
def workPlacements (hasDesk hasChair hasSofa : Bool) : List PlacementQ :=
  (if hasDesk then [⟨4, 1, 6/5, 3/5, 1⟩] else []) ++
  (if hasChair then [⟨16/5, 1, 3/5, 3/5, 1⟩] else []) ++
  (if hasSofa then [⟨1, 5/2, 228/100, 95/100, 0⟩] else [])

/-- Placements of the `entertainment_focused` strategy.  TV stand at
`(2.5, 0.2)` rot 0, sofa at `(2.5, 2.8)` rot 180, side table at
`(1.0, 2.8)` rot 0. -/
def entertainmentPlacements (hasTv hasSofa hasSide : Bool) : List PlacementQ :=
  (if hasTv then [⟨5/2, 1/5, 3/2, 2/5, 0⟩] else []) ++
  (if hasSofa then [⟨5/2, 14/5, 228/100, 95/100, 2⟩] else []) ++
  (if hasSide then [⟨1, 14/5, 1/2, 1/2, 0⟩] else [])

/-- The progress values `generate_layouts` emits to the progress stream, in
emission order (`update_job_progress` calls at 0.1, 0.2, 0.3, 0.5, 0.8, 1.0).
On the failure path the exception aborts the remaining calls, so the emitted
sequence is a prefix of this list; the handler's failure result is published
to `layout.results`, not to the progress stream. -/
def layoutProgressValues : List ℚ := [1/10, 1/5, 3/10, 1/2, 4/5, 1]

/-! ## Constraint solver (`constraint_solver.py`)

Embedding of the CP-SAT model of `RealConstraintSolver.solve_layout` as a
feasibility predicate on assignments: a solution returned with status
OPTIMAL or FEASIBLE satisfies every posted constraint.  Grid resolution is
2 cm; dimension-to-grid conversions use integer floor division as in the
source (`width_cm // 2`).  Intermediate absolute-difference variables are
declared with domain `[0, 1000]`, which the embedding keeps as explicit
caps.  The reified non-overlap booleans are equivalent to the plain
disjunction of the four separations at the items' actual rotations, which is
how the embedding states them.  `_add_sofa_table_constraint` ends in `pass`
and posts no constraint. -/

/-- A furniture item as the solver sees it (`FurnitureItem`); `clearanceAll`
is `clearances.get('all', 40)`. -/
structure SolverItem where
  id : String
  name : String
  width_cm : ℕ
  depth_cm : ℕ
  height_cm : ℕ
  clearanceAll : Option ℕ
  deriving DecidableEq

/-- A value assignment for one item's decision variables
`(x, y, rotation, placed)`; positions are in 2 cm grid units. -/
structure SolverAssign where
  item : SolverItem
  x : ℕ
  y : ℕ
  rot : Fin 4
  placed : Bool
  deriving DecidableEq

/-- Rotated dimensions in cm (`_get_rotated_dimensions`): width and depth
swap at rotations 1 and 3 (90 and 270 degrees). -/
def rotDimsCm (it : SolverItem) (r : Fin 4) : ℕ × ℕ :=
  if r = 1 ∨ r = 3 then (it.depth_cm, it.width_cm) else (it.width_cm, it.depth_cm)

/-- ASCII lowercasing of one character (Python `str.lower()` on the ASCII
item names of this codebase). -/
def lowerChar (c : Char) : Char :=
  if c.isUpper then Char.ofNat (c.toNat + 32) else c

/-- Lowercased character list of a name. -/
def strLower (s : String) : List Char := s.data.map lowerChar

/-- Character-list version of `isPrefixOf`. -/
def listStartsWith : List Char → List Char → Bool
  | [], _ => true
  | _ :: _, [] => false
  | a :: as, b :: bs => a == b && listStartsWith as bs

/-- Substring containment on character lists (Python `pat in s`). -/
def containsSub (s pat : List Char) : Bool :=
  listStartsWith pat s ||
    match s with
    | [] => false
    | _ :: t => containsSub t pat

/-- Substring test used for functional-pair detection
(`'sofa' in item.name.lower()` and friends). -/
def nameHas (it : SolverItem) (pat : String) : Bool :=
  containsSub (strLower it.name) pat.data

/-- Variable-domain constraints: `NewIntVar(0, grid_width - 1)` and
`NewIntVar(0, grid_height - 1)`. -/
def domainOk (gw gh : ℕ) (a : SolverAssign) : Bool :=
  a.x < gw && a.y < gh

/-- Boundary constraints (`_add_boundary_constraints`): when placed, the
grid footprint at the item's rotation fits inside the grid. -/
def boundaryOk (gw gh : ℕ) (a : SolverAssign) : Bool :=
  !a.placed ||
    (let wd := rotDimsCm a.item a.rot
     decide (a.x + wd.1 / 2 ≤ gw) && decide (a.y + wd.2 / 2 ≤ gh))

/-- Non-overlap constraints (`_add_collision_constraints`): when both items
are placed, one of the four canonical separations holds for the grid
footprints at the actual rotations. -/
def nonOverlapOk (a b : SolverAssign) : Bool :=
  !(a.placed && b.placed) ||
    (let wa := rotDimsCm a.item a.rot
     let wb := rotDimsCm b.item b.rot
     decide (a.x + wa.1 / 2 ≤ b.x) || decide (b.x + wb.1 / 2 ≤ a.x) ||
     decide (a.y + wa.2 / 2 ≤ b.y) || decide (b.y + wb.2 / 2 ≤ a.y))

/-- Clearance constraints (`_add_clearance_constraints`): the intermediate
absolute-difference and distance variables live in `[0, 1000]`, and when
both items are placed the Manhattan distance of the corner positions is at
least `max(clearance_all_1, clearance_all_2) // 2`. -/
def clearanceOk (a b : SolverAssign) : Bool :=
  let dx := Nat.dist a.x b.x
  let dy := Nat.dist a.y b.y
  let cg := max (a.item.clearanceAll.getD 40) (b.item.clearanceAll.getD 40) / 2
  decide (dx ≤ 1000) && decide (dy ≤ 1000) && decide (dx + dy ≤ 1000) &&
    (!(a.placed && b.placed) || decide (cg ≤ dx + dy))

/-- Door constraints (`_add_door_constraints`): when placed, the Manhattan
distance from the item's corner to the door's grid position is at least
`min_door_clearance_cm // 2`. -/
def doorOk (clearGrid : ℕ) (door : ℕ × ℕ) (a : SolverAssign) : Bool :=
  let dx := Nat.dist a.x door.1
  let dy := Nat.dist a.y door.2
  decide (dx ≤ 1000) && decide (dy ≤ 1000) && decide (dx + dy ≤ 1000) &&
    (!a.placed || decide (clearGrid ≤ dx + dy))

/-- Window constraints (`_add_window_constraints`), applied only to items
taller than 100 cm. -/
def windowOk (accessGrid : ℕ) (win : ℕ × ℕ) (a : SolverAssign) : Bool :=
  if a.item.height_cm > 100 then
    let dx := Nat.dist a.x win.1
    let dy := Nat.dist a.y win.2
    decide (dx ≤ 1000) && decide (dy ≤ 1000) && decide (dx + dy ≤ 1000) &&
      (!a.placed || decide (accessGrid ≤ dx + dy))
  else true

/-- Desk-chair constraints (`_add_desk_chair_constraint`): when both are
placed, the Manhattan distance lies in `[70//2 - 10, 70//2 + 10]` grid
units. -/
def deskChairOk (d c : SolverAssign) : Bool :=
  let dx := Nat.dist d.x c.x
  let dy := Nat.dist d.y c.y
  decide (dx ≤ 1000) && decide (dy ≤ 1000) && decide (dx + dy ≤ 1000) &&
    (!(d.placed && c.placed) || (decide (25 ≤ dx + dy) && decide (dx + dy ≤ 45)))

/-- TV-sofa viewing constraints (`_add_tv_viewing_constraint`): when both are
placed, the Manhattan distance lies in `[200//2, 400//2]` grid units. -/
def tvSofaOk (t s : SolverAssign) : Bool :=
  let dx := Nat.dist t.x s.x
  let dy := Nat.dist t.y s.y
  decide (dx ≤ 1000) && decide (dy ≤ 1000) &&
    (!(t.placed && s.placed) || (decide (100 ≤ dx + dy) && decide (dx + dy ≤ 200)))

/-- Boolean pairwise check over the nested `for i / for j in l[i+1:]`
loops. -/
def pairsAllB {α : Type} (f : α → α → Bool) : List α → Bool
  | [] => true
  | a :: rest => rest.all (f a) && pairsAllB f rest

/-- Full feasibility of an assignment for the posted CP-SAT model: domains,
boundaries, non-overlap, clearances, doors, windows, and the name-matched
functional pair constraints (desk-chair, tv-sofa; the sofa-coffee-table
builder posts nothing). -/
def solverFeasible (gw gh dcGrid waGrid : ℕ) (doors windows : List (ℕ × ℕ))
    (cfg : List SolverAssign) : Bool :=
  cfg.all (fun a => domainOk gw gh a && boundaryOk gw gh a) &&
  pairsAllB nonOverlapOk cfg &&
  pairsAllB clearanceOk cfg &&
  doors.all (fun d => cfg.all (doorOk dcGrid d)) &&
  windows.all (fun w => cfg.all (windowOk waGrid w)) &&
  (cfg.filter (fun a => nameHas a.item "desk")).all (fun d =>
    (cfg.filter (fun a => nameHas a.item "chair")).all (fun c => deskChairOk d c)) &&
  (cfg.filter (fun a => nameHas a.item "tv")).all (fun t =>
    (cfg.filter (fun a => nameHas a.item "sofa")).all (fun s => tvSofaOk t s))

/-- Footprints of the placements `_extract_solution` returns, under the
claim C1 interpretation: `(x_cm, y_cm) = (2·x, 2·y)` is the lower-left
corner of the rotated axis-aligned bounding box with the item's true
dimensions.  Coordinates here stay in centimeters; whether a collision list
is empty and whether an overlap area is zero are invariant under the cm→m
scaling the validator applies. -/
def extractedFootprints (cfg : List SolverAssign) : List RectQ :=
  (cfg.filter (fun a => a.placed)).map (fun a =>
    let wd := rotDimsCm a.item a.rot
    ⟨((2 * a.x : ℕ) : ℚ), ((2 * a.x + wd.1 : ℕ) : ℚ),
     ((2 * a.y : ℕ) : ℚ), ((2 * a.y + wd.2 : ℕ) : ℚ)⟩)

/-! ## Concrete instances used in counterexamples and witnesses -/

/-- Two 228×96 cm items placed side by side and touching at `x = 228` cm:
a feasible solver solution whose extracted footprints the validator reports
as a collision pair (of zero overlap area). -/
def touchingCfg : List SolverAssign :=
  [ ⟨⟨"box_a", "a", 228, 96, 83, none⟩, 0, 0, 0, true⟩,
    ⟨⟨"box_b", "b", 228, 96, 83, none⟩, 114, 0, 0, true⟩ ]

/-- Two 100×100 cm items 1 m apart: a feasible solver solution with
even dimensions, used to witness the amended round-trip theorem. -/
def evenDimCfg : List SolverAssign :=
  [ ⟨⟨"cube_a", "c", 100, 100, 80, none⟩, 0, 0, 0, true⟩,
    ⟨⟨"cube_b", "d", 100, 100, 80, none⟩, 50, 0, 0, true⟩ ]

/-! ## Helper lemmas -/

theorem pairwise_iff_allPairs {α : Type} (P : α → α → Prop) (l : List α) :
    List.Pairwise P l ↔ ∀ p ∈ allPairs l, P p.1 p.2 := by
  induction l with
  | nil => simp [allPairs]
  | cons a rest ih =>
    simp only [List.pairwise_cons, allPairs, List.mem_append, List.mem_map, ih]
    constructor
    · rintro ⟨h1, h2⟩ p hp
      rcases hp with ⟨b, hb, rfl⟩ | hp
      · exact h1 b hb
      · exact h2 p hp
    · intro h
      refine ⟨fun b hb => h (a, b) (Or.inl ⟨b, hb, rfl⟩), fun p hp => h p (Or.inr hp)⟩

theorem mem_allPairs_map {α β : Type} (f : α → β) (l : List α) :
    ∀ p ∈ allPairs (l.map f), ∃ q ∈ allPairs l, p = (f q.1, f q.2) := by
  induction l with
  | nil => intro p hp; simp [allPairs] at hp
  | cons a rest ih =>
    intro p hp
    rw [List.map_cons, show allPairs (f a :: rest.map f)
        = (rest.map f).map (fun b => (f a, b)) ++ allPairs (rest.map f) from rfl,
      List.mem_append] at hp
    rcases hp with hp | hp
    · rcases List.mem_map.mp hp with ⟨b, hb, rfl⟩
      rcases List.mem_map.mp hb with ⟨c, hc, rfl⟩
      refine ⟨(a, c), ?_, rfl⟩
      show (a, c) ∈ rest.map (fun b => (a, b)) ++ allPairs rest
      exact List.mem_append.mpr (Or.inl (List.mem_map.mpr ⟨c, hc, rfl⟩))
    · rcases ih p hp with ⟨q, hq, rfl⟩
      refine ⟨q, ?_, rfl⟩
      show q ∈ rest.map (fun b => (a, b)) ++ allPairs rest
      exact List.mem_append.mpr (Or.inr hq)

theorem mem_of_mem_allPairs {α : Type} {l : List α} :
    ∀ p ∈ allPairs l, p.1 ∈ l ∧ p.2 ∈ l := by
  induction l with
  | nil => intro p hp; simp [allPairs] at hp
  | cons a rest ih =>
    intro p hp
    rw [show allPairs (a :: rest) = rest.map (fun b => (a, b)) ++ allPairs rest from rfl,
      List.mem_append] at hp
    rcases hp with hp | hp
    · rcases List.mem_map.mp hp with ⟨b, hb, rfl⟩
      exact ⟨List.mem_cons_self a rest, List.mem_cons_of_mem a hb⟩
    · rcases ih p hp with ⟨h1, h2⟩
      exact ⟨List.mem_cons_of_mem a h1, List.mem_cons_of_mem a h2⟩

theorem pairsAllB_iff_pairwise {α : Type} (f : α → α → Bool) (l : List α) :
    pairsAllB f l = true ↔ List.Pairwise (fun a b => f a b = true) l := by
  induction l with
  | nil => simp [pairsAllB]
  | cons a rest ih =>
    simp [pairsAllB, List.pairwise_cons, List.all_eq_true, ih, and_comm]

theorem roundHalfEven_le {x : ℚ} {b : ℤ} (h : x ≤ b) : roundHalfEven x ≤ b := by
  unfold roundHalfEven
  have hfl : ⌊x⌋ ≤ b := by
    have := Int.floor_le_floor h
    rwa [Int.floor_intCast] at this
  have hfl' : (⌊x⌋ : ℚ) ≤ x := Int.floor_le x
  split
  · exact hfl
  · split
    · rename_i h1 h2
      have hx : (⌊x⌋ : ℚ) < x := by linarith
      have hcast : (⌊x⌋ : ℚ) < (b : ℚ) := lt_of_lt_of_le hx h
      have hb : ⌊x⌋ < b := by exact_mod_cast hcast
      omega
    · split
      · exact hfl
      · rename_i h1 h2 h3
        have hx : (⌊x⌋ : ℚ) < x := by linarith
        have hcast : (⌊x⌋ : ℚ) < (b : ℚ) := lt_of_lt_of_le hx h
        have hb : ⌊x⌋ < b := by exact_mod_cast hcast
        omega

theorem le_roundHalfEven {x : ℚ} {a : ℤ} (h : (a : ℚ) ≤ x) : a ≤ roundHalfEven x := by
  unfold roundHalfEven
  have hfl : a ≤ ⌊x⌋ := Int.le_floor.mpr h
  split
  · exact hfl
  · split
    · omega
    · split
      · exact hfl
      · omega

theorem round3_bounds {x : ℚ} (h0 : 0 ≤ x) (h1 : x ≤ 1) :
    0 ≤ round3 x ∧ round3 x ≤ 1 := by
  unfold round3
  have hlo : (0 : ℤ) ≤ roundHalfEven (1000 * x) := by
    apply le_roundHalfEven
    push_cast
    linarith
  have hhi : roundHalfEven (1000 * x) ≤ (1000 : ℤ) := by
    apply roundHalfEven_le
    push_cast
    linarith
  constructor
  · positivity
  · rw [div_le_one (by norm_num)]
    exact_mod_cast hhi

theorem sum01_bounds :
    ∀ l : List ℚ, (∀ x ∈ l, x = 0 ∨ x = 1) → 0 ≤ l.sum ∧ l.sum ≤ l.length := by
  intro l
  induction l with
  | nil => intro _; simp
  | cons a rest ih =>
    intro h
    have ha := h a (List.mem_cons_self a rest)
    have hr := ih (fun x hx => h x (List.mem_cons_of_mem a hx))
    rcases ha with rfl | rfl <;>
      simp only [List.sum_cons, List.length_cons] <;>
      constructor <;> push_cast <;> linarith [hr.1, hr.2]

theorem interLen_nonneg (a1 b1 a2 b2 : ℚ) : 0 ≤ interLen a1 b1 a2 b2 :=
  le_max_left 0 _

theorem interArea_eq_zero_of_sepX {r s : RectQ}
    (h : r.xhi ≤ s.xlo ∨ s.xhi ≤ r.xlo) : interArea r s = 0 := by
  have hx : interLen r.xlo r.xhi s.xlo s.xhi = 0 := by
    unfold interLen
    rcases h with h | h
    · have h1 : min r.xhi s.xhi ≤ r.xhi := min_le_left _ _
      have h2 : s.xlo ≤ max r.xlo s.xlo := le_max_right _ _
      have : min r.xhi s.xhi - max r.xlo s.xlo ≤ 0 := by linarith
      exact max_eq_left this
    · have h1 : min r.xhi s.xhi ≤ s.xhi := min_le_right _ _
      have h2 : r.xlo ≤ max r.xlo s.xlo := le_max_left _ _
      have : min r.xhi s.xhi - max r.xlo s.xlo ≤ 0 := by linarith
      exact max_eq_left this
  unfold interArea
  rw [hx, zero_mul]

theorem interArea_eq_zero_of_sepY {r s : RectQ}
    (h : r.yhi ≤ s.ylo ∨ s.yhi ≤ r.ylo) : interArea r s = 0 := by
  have hy : interLen r.ylo r.yhi s.ylo s.yhi = 0 := by
    unfold interLen
    rcases h with h | h
    · have h1 : min r.yhi s.yhi ≤ r.yhi := min_le_left _ _
      have h2 : s.ylo ≤ max r.ylo s.ylo := le_max_right _ _
      have : min r.yhi s.yhi - max r.ylo s.ylo ≤ 0 := by linarith
      exact max_eq_left this
    · have h1 : min r.yhi s.yhi ≤ s.yhi := min_le_right _ _
      have h2 : r.ylo ≤ max r.ylo s.ylo := le_max_left _ _
      have : min r.yhi s.yhi - max r.ylo s.ylo ≤ 0 := by linarith
      exact max_eq_left this
  unfold interArea
  rw [hy, mul_zero]

theorem styleStage_sublist (prefs : List String) (catalog : List CatalogItem) :
    List.Sublist (styleStage prefs catalog) catalog := by
  unfold styleStage
  split
  · split
    · exact List.filter_sublist _
    · exact List.Sublist.refl _
  · exact List.Sublist.refl _

theorem budgetStage_sublist (budget : Option ℤ) (catalog : List CatalogItem) :
    List.Sublist (budgetStage budget catalog) catalog := by
  cases budget with
  | none => exact List.Sublist.refl _
  | some b =>
    simp only [budgetStage]
    split
    · exact List.filter_sublist _
    · exact List.Sublist.refl _

theorem areaStage_sublist (area : ℚ) (catalog : List CatalogItem) :
    List.Sublist (areaStage area catalog) catalog := by
  unfold areaStage
  split
  · exact List.filter_sublist _
  · exact List.Sublist.refl _

theorem doorAccessibility_bounds (doors : List (ℚ × ℚ)) (furn : List RectQ) :
    0 ≤ doorAccessibility doors furn ∧ doorAccessibility doors furn ≤ 1 := by
  unfold doorAccessibility
  split
  · norm_num
  · rename_i hne
    have h01 : ∀ x ∈ doorAccessScores doors furn, x = 0 ∨ x = 1 := by
      intro x hx
      rcases List.mem_map.mp hx with ⟨d, _, rfl⟩
      split <;> simp
    have hb := sum01_bounds _ h01
    have hlen : 0 < (doorAccessScores doors furn).length := List.length_pos.mpr hne
    have hlenq : (0 : ℚ) < ((doorAccessScores doors furn).length : ℚ) := by
      exact_mod_cast hlen
    unfold listMean
    constructor
    · exact div_nonneg hb.1 (le_of_lt hlenq)
    · rw [div_le_one hlenq]
      exact hb.2

theorem windowAccessibility_bounds (windows : List (ℚ × ℚ)) (furn : List RectQ) :
    0 ≤ windowAccessibility windows furn ∧ windowAccessibility windows furn ≤ 1 := by
  unfold windowAccessibility
  split
  · norm_num
  · rename_i hne
    have h01 : ∀ x ∈ windowAccessScores windows furn, x = 0 ∨ x = 1 := by
      intro x hx
      rcases List.mem_map.mp hx with ⟨w, _, rfl⟩
      split <;> simp
    have hb := sum01_bounds _ h01
    have hlen : 0 < (windowAccessScores windows furn).length := List.length_pos.mpr hne
    have hlenq : (0 : ℚ) < ((windowAccessScores windows furn).length : ℚ) := by
      exact_mod_cast hlen
    unfold listMean
    constructor
    · exact div_nonneg hb.1 (le_of_lt hlenq)
    · rw [div_le_one hlenq]
      exact hb.2

theorem flowEfficiency_bounds {walkable roomArea : ℚ} (h0 : 0 ≤ walkable)
    (h1 : 0 < roomArea) :
    0 ≤ flowEfficiency walkable roomArea ∧ flowEfficiency walkable roomArea ≤ 1 := by
  unfold flowEfficiency
  constructor
  · exact le_min (by norm_num) (div_nonneg h0 (by positivity))
  · exact min_le_left _ _

theorem accessibilityScore_bounds {d w f : ℚ} (hd : 0 ≤ d ∧ d ≤ 1)
    (hw : 0 ≤ w ∧ w ≤ 1) (hf : 0 ≤ f ∧ f ≤ 1) :
    0 ≤ accessibilityScore d w f ∧ accessibilityScore d w f ≤ 1 := by
  unfold accessibilityScore
  exact round3_bounds (by linarith [hd.1, hw.1, hf.1]) (by linarith [hd.2, hw.2, hf.2])

theorem heatValue_bounds (dOpt : Option ℚ) : 0 ≤ heatValue dOpt ∧ heatValue dOpt ≤ 1 := by
  cases dOpt with
  | none => norm_num [heatValue]
  | some dsq =>
    simp only [heatValue]
    split
    · norm_num
    · rename_i h1
      split
      · norm_num
      · rename_i h2
        push_neg at h1 h2
        have hd0 : ((9 : ℝ)/100) ≤ (dsq : ℝ) := by
          rw [show ((9 : ℝ)/100) = ((9/100 : ℚ) : ℝ) by push_cast; norm_num]
          exact Rat.cast_le.mpr h1
        have hd1 : ((dsq : ℝ)) ≤ 9/4 := by
          rw [show ((9 : ℝ)/4) = ((9/4 : ℚ) : ℝ) by push_cast; norm_num]
          exact Rat.cast_le.mpr h2
        have hs0 : (3/10 : ℝ) ≤ Real.sqrt (dsq : ℝ) := by
          have hmono : Real.sqrt ((9 : ℝ)/100) ≤ Real.sqrt (dsq : ℝ) :=
            Real.sqrt_le_sqrt hd0
          rwa [show ((9 : ℝ)/100) = (3/10)^2 by norm_num,
            Real.sqrt_sq (by norm_num)] at hmono
        have hs1 : Real.sqrt (dsq : ℝ) ≤ 3/2 := by
          have hmono : Real.sqrt (dsq : ℝ) ≤ Real.sqrt ((9 : ℝ)/4) :=
            Real.sqrt_le_sqrt hd1
          rwa [show ((9 : ℝ)/4) = (3/2)^2 by norm_num,
            Real.sqrt_sq (by norm_num)] at hmono
        constructor
        · apply div_nonneg _ (by norm_num)
          linarith
        · rw [div_le_one (by norm_num)]
          linarith

theorem heatValue_ne_neg_one (dOpt : Option ℚ) : heatValue dOpt ≠ -1 := by
  have hb := heatValue_bounds dOpt
  intro h
  rw [h] at hb
  linarith [hb.1]

theorem optTriple_sublist {α : Type} (x y z : α) (s c a : Bool) :
    List.Sublist
      ((if s then [x] else []) ++ (if c then [y] else []) ++ (if a then [z] else []))
      [x, y, z] := by
  have h1 : List.Sublist (if s then [x] else []) [x] := by cases s <;> simp
  have h2 : List.Sublist (if c then [y] else []) [y] := by cases c <;> simp
  have h3 : List.Sublist (if a then [z] else []) [z] := by cases a <;> simp
  simpa using List.Sublist.append h1 (List.Sublist.append h2 h3)

theorem rotatedDims_zero (w d : ℚ) : rotatedDims w d 0 = (w, d) := rfl

theorem rotatedDims_one (w d : ℚ) : rotatedDims w d 1 = (d, w) := rfl

theorem rotatedDims_two (w d : ℚ) : rotatedDims w d 2 = (w, d) := rfl

theorem rotatedDims_three (w d : ℚ) : rotatedDims w d 3 = (d, w) := rfl

/-- Zero pairwise footprint overlap for the full conversation-strategy
placement list. -/
theorem conversationFull_pairwise :
    List.Pairwise (fun p q => interArea (placementRect p) (placementRect q) = 0)
      [⟨1, 1/2, 228/100, 95/100, 0⟩, ⟨1, 9/5, 6/5, 3/5, 0⟩, ⟨7/2, 1, 4/5, 17/20, 3⟩] := by
  refine List.Pairwise.cons ?_ (List.Pairwise.cons ?_ (List.pairwise_singleton _ _))
  · intro q hq
    rcases List.mem_cons.mp hq with rfl | hq
    · exact interArea_eq_zero_of_sepY (Or.inl (by simp only [placementRect, rotatedDims_zero, rotatedDims_one, rotatedDims_two, rotatedDims_three]; norm_num))
    · rcases List.mem_singleton.mp hq with rfl
      exact interArea_eq_zero_of_sepX (Or.inl (by simp only [placementRect, rotatedDims_zero, rotatedDims_one, rotatedDims_two, rotatedDims_three]; norm_num))
  · intro q hq
    rcases List.mem_singleton.mp hq with rfl
    exact interArea_eq_zero_of_sepX (Or.inl (by simp only [placementRect, rotatedDims_zero, rotatedDims_one, rotatedDims_two, rotatedDims_three]; norm_num))

/-- Zero pairwise footprint overlap for the full work-strategy placement
list. -/
theorem workFull_pairwise :
    List.Pairwise (fun p q => interArea (placementRect p) (placementRect q) = 0)
      [⟨4, 1, 6/5, 3/5, 1⟩, ⟨16/5, 1, 3/5, 3/5, 1⟩, ⟨1, 5/2, 228/100, 95/100, 0⟩] := by
  refine List.Pairwise.cons ?_ (List.Pairwise.cons ?_ (List.pairwise_singleton _ _))
  · intro q hq
    rcases List.mem_cons.mp hq with rfl | hq
    · exact interArea_eq_zero_of_sepX (Or.inr (by simp only [placementRect, rotatedDims_zero, rotatedDims_one, rotatedDims_two, rotatedDims_three]; norm_num))
    · rcases List.mem_singleton.mp hq with rfl
      exact interArea_eq_zero_of_sepX (Or.inr (by simp only [placementRect, rotatedDims_zero, rotatedDims_one, rotatedDims_two, rotatedDims_three]; norm_num))
  · intro q hq
    rcases List.mem_singleton.mp hq with rfl
    exact interArea_eq_zero_of_sepY (Or.inl (by simp only [placementRect, rotatedDims_zero, rotatedDims_one, rotatedDims_two, rotatedDims_three]; norm_num))

/-- Zero pairwise footprint overlap for the full entertainment-strategy
placement list. -/
theorem entertainmentFull_pairwise :
    List.Pairwise (fun p q => interArea (placementRect p) (placementRect q) = 0)
      [⟨5/2, 1/5, 3/2, 2/5, 0⟩, ⟨5/2, 14/5, 228/100, 95/100, 2⟩, ⟨1, 14/5, 1/2, 1/2, 0⟩] := by
  refine List.Pairwise.cons ?_ (List.Pairwise.cons ?_ (List.pairwise_singleton _ _))
  · intro q hq
    rcases List.mem_cons.mp hq with rfl | hq
    · exact interArea_eq_zero_of_sepY (Or.inl (by simp only [placementRect, rotatedDims_zero, rotatedDims_one, rotatedDims_two, rotatedDims_three]; norm_num))
    · rcases List.mem_singleton.mp hq with rfl
      exact interArea_eq_zero_of_sepY (Or.inl (by simp only [placementRect, rotatedDims_zero, rotatedDims_one, rotatedDims_two, rotatedDims_three]; norm_num))
  · intro q hq
    rcases List.mem_singleton.mp hq with rfl
    exact interArea_eq_zero_of_sepX (Or.inr (by simp only [placementRect, rotatedDims_zero, rotatedDims_one, rotatedDims_two, rotatedDims_three]; norm_num))

/-! ## Claim theorems -/

/-- C9: within a single layout job the progress values emitted to the
progress stream are monotonically non-decreasing, on both the successful
path (the full emission sequence 0.1, 0.2, 0.3, 0.5, 0.8, 1.0 of
`generate_layouts`) and the failure path (an exception aborts the remaining
`update_job_progress` calls, so the emitted sequence is a prefix; the
failure result itself goes to `layout.results`, not the progress stream). -/
theorem claim_C9_progress_monotone (l : List ℚ) (h : l <+: layoutProgressValues) :
    l.Sorted (· ≤ ·) := by
  have hs : layoutProgressValues.Sorted (· ≤ ·) := by
    unfold layoutProgressValues
    norm_num [List.sorted_cons]
  exact hs.sublist h.sublist

/-- Witness for C9: the prefix emitted when the job fails during the
constraint-model build stage is non-decreasing. -/
theorem claim_C9_witness :
    ([1/10, 1/5, 3/10] : List ℚ) <+: layoutProgressValues
    ∧ ([1/10, 1/5, 3/10] : List ℚ).Sorted (· ≤ ·) :=
  ⟨⟨[1/2, 4/5, 1], rfl⟩, claim_C9_progress_monotone _ ⟨[1/2, 4/5, 1], rfl⟩⟩

/-- C10: with no doors the validator's `analyze_accessibility` returns
`door_accessibility = 1.0`, and with no windows `window_accessibility = 1.0`
(the `np.mean(...) if ... else 1.0` fallbacks), for every furniture list. -/
theorem claim_C10_empty_doors_full_access :
    ∀ furniture : List RectQ,
      doorAccessibility [] furniture = 1 ∧ windowAccessibility [] furniture = 1 := by
  intro f
  exact ⟨rfl, rfl⟩

/-- C7: the claim is right and the code is wrong.  With `budget_cents = 0`
the guard `if budget_cents:` in `generate_furniture_catalog` is false
(Python truthiness), so the budget filter is skipped entirely: the catalog
stays the full 8-item base catalog instead of becoming empty, and the job
does not return `layouts = []`. -/
theorem claim_C7_budget_zero_skips_filter :
    generateFurnitureCatalog [] (some 0) 20 = baseCatalog ∧ baseCatalog.length = 8 :=
  ⟨rfl, rfl⟩

/-- C8, counterexample: with no style preferences, no budget and a 20 m²
room the filter returns the base catalog unchanged, whose priority sequence
1, 2, 2, 3, 2, 3, 2, 2 is not ascending — the output is not sorted by
priority, so the claim as stated is false. -/
theorem claim_C8_counterexample :
    ¬ List.Pairwise (fun a b : CatalogItem => a.priority ≤ b.priority)
        (generateFurnitureCatalog [] none 20) := by
  intro h
  rw [show generateFurnitureCatalog [] none 20 = baseCatalog from rfl] at h
  simp only [baseCatalog] at h
  have h4 := ((h.of_cons).of_cons).of_cons
  have hrel := (List.pairwise_cons.mp h4).1 _ (List.mem_cons_self _ _)
  norm_num at hrel

/-- C8, amended: the catalog filter does not sort at all; its output is an
order-preserving sublist of the input catalog (so items — including those of
equal priority — keep their input order). -/
theorem claim_C8_filter_returns_ordered_sublist :
    ∀ (catalog : List CatalogItem) (stylePrefs : List String)
      (budget : Option ℤ) (area : ℚ),
      List.Sublist (catalogFilter catalog stylePrefs budget area) catalog := by
  intro catalog prefs budget area
  exact ((areaStage_sublist _ _).trans (budgetStage_sublist _ _)).trans
    (styleStage_sublist _ _)

/-- C2: in every layout the layout worker returns with status completed, the
footprints of any two placements have intersection area 0.  Each strategy of
`generate_layout_solution` places its items at fixed positions; the booleans
quantify over which items survived the catalog filter. -/
theorem claim_C2_no_footprint_overlap :
    (∀ s c a : Bool, ∀ p ∈ allPairs (conversationPlacements s c a),
        interArea (placementRect p.1) (placementRect p.2) = 0)
    ∧ (∀ d c s : Bool, ∀ p ∈ allPairs (workPlacements d c s),
        interArea (placementRect p.1) (placementRect p.2) = 0)
    ∧ (∀ t s st : Bool, ∀ p ∈ allPairs (entertainmentPlacements t s st),
        interArea (placementRect p.1) (placementRect p.2) = 0) := by
  refine ⟨?_, ?_, ?_⟩
  · intro s c a p hp
    exact (pairwise_iff_allPairs _ _).mp
      (conversationFull_pairwise.sublist (optTriple_sublist _ _ _ s c a)) p hp
  · intro d c s p hp
    exact (pairwise_iff_allPairs _ _).mp
      (workFull_pairwise.sublist (optTriple_sublist _ _ _ d c s)) p hp
  · intro t s st p hp
    exact (pairwise_iff_allPairs _ _).mp
      (entertainmentFull_pairwise.sublist (optTriple_sublist _ _ _ t s st)) p hp


/-- Witness for C2: the sofa and coffee-table footprints of the conversation
strategy with the full catalog do not overlap. -/
theorem claim_C2_witness :
    ((⟨1, 1/2, 228/100, 95/100, 0⟩ : PlacementQ), (⟨1, 9/5, 6/5, 3/5, 0⟩ : PlacementQ))
        ∈ allPairs (conversationPlacements true true true)
    ∧ interArea (placementRect ⟨1, 1/2, 228/100, 95/100, 0⟩)
        (placementRect ⟨1, 9/5, 6/5, 3/5, 0⟩) = 0 := by
  have hmem : ((⟨1, 1/2, 228/100, 95/100, 0⟩ : PlacementQ),
      (⟨1, 9/5, 6/5, 3/5, 0⟩ : PlacementQ))
        ∈ allPairs (conversationPlacements true true true) := by
    show _ ∈ allPairs
      ([(⟨1, 1/2, 228/100, 95/100, 0⟩ : PlacementQ)] ++
        [(⟨1, 9/5, 6/5, 3/5, 0⟩ : PlacementQ)] ++ [(⟨7/2, 1, 4/5, 17/20, 3⟩ : PlacementQ)])
    exact List.mem_cons_self _ _
  refine ⟨hmem, ?_⟩
  exact claim_C2_no_footprint_overlap.1 true true true
    ((⟨1, 1/2, 228/100, 95/100, 0⟩ : PlacementQ), (⟨1, 9/5, 6/5, 3/5, 0⟩ : PlacementQ)) hmem

/-- C3, counterexample: two 1 m × 1 m footprints touching at `x = 1`
(distance 0, interior overlap 0) are reported as a collision pair by
`check_collisions`, although their intersection area 0 does not exceed
`EPS` — the claim's "touching is not reported" direction is false. -/
theorem claim_C3_counterexample :
    (placementRect ⟨1/2, 1/2, 1, 1, 0⟩, placementRect ⟨3/2, 1/2, 1, 1, 0⟩)
        ∈ checkCollisionPairs
            [placementRect ⟨1/2, 1/2, 1, 1, 0⟩, placementRect ⟨3/2, 1/2, 1, 1, 0⟩]
    ∧ ¬ (EPS < overlapArea
          (placementRect ⟨1/2, 1/2, 1, 1, 0⟩, placementRect ⟨3/2, 1/2, 1, 1, 0⟩)) := by
  constructor
  · apply List.mem_filter.mpr
    constructor
    · show _ ∈ allPairs [placementRect ⟨1/2, 1/2, 1, 1, 0⟩, placementRect ⟨3/2, 1/2, 1, 1, 0⟩]
      exact List.mem_cons_self _ _
    · simp only [rectIntersects, placementRect, rotatedDims_zero, decide_eq_true_eq]
      norm_num [min_def, max_def]
  · norm_num [overlapArea, interArea, interLen, placementRect, rotatedDims_zero,
      EPS, min_def, max_def]

/-- C3, amended: `check_collisions` records a pair as a collision exactly
when the two closed footprints intersect (shapely `intersects`, distance 0) —
touching footprints with zero interior overlap are therefore reported, with
`overlap_area = 0`; any pair whose intersection area exceeds `EPS` does
intersect and is in particular reported. -/
theorem claim_C3_collision_iff_closed_intersection :
    (∀ (l : List RectQ) (p : RectQ × RectQ),
        p ∈ checkCollisionPairs l ↔ p ∈ allPairs l ∧ rectIntersects p.1 p.2 = true)
    ∧ (∀ r s : RectQ, EPS < interArea r s → rectIntersects r s = true) := by
  constructor
  · intro l p
    unfold checkCollisionPairs
    exact List.mem_filter
  · intro r s h
    have hEps : (0 : ℚ) < EPS := by norm_num [EPS]
    have harea : 0 < interArea r s := lt_trans hEps h
    have hx : 0 < interLen r.xlo r.xhi s.xlo s.xhi := by
      by_contra hc
      push_neg at hc
      have hx0 : interLen r.xlo r.xhi s.xlo s.xhi = 0 :=
        le_antisymm hc (interLen_nonneg _ _ _ _)
      unfold interArea at harea
      rw [hx0, zero_mul] at harea
      exact lt_irrefl 0 harea
    have hy : 0 < interLen r.ylo r.yhi s.ylo s.yhi := by
      by_contra hc
      push_neg at hc
      have hy0 : interLen r.ylo r.yhi s.ylo s.yhi = 0 :=
        le_antisymm hc (interLen_nonneg _ _ _ _)
      unfold interArea at harea
      rw [hy0, mul_zero] at harea
      exact lt_irrefl 0 harea
    unfold interLen at hx hy
    have hx' : 0 < min r.xhi s.xhi - max r.xlo s.xlo := by
      rcases lt_max_iff.mp hx with h0 | h0
      · exact absurd h0 (lt_irrefl 0)
      · exact h0
    have hy' : 0 < min r.yhi s.yhi - max r.ylo s.ylo := by
      rcases lt_max_iff.mp hy with h0 | h0
      · exact absurd h0 (lt_irrefl 0)
      · exact h0
    simp only [rectIntersects, decide_eq_true_eq]
    exact ⟨by linarith, by linarith⟩

/-- Witness for C3: a pair overlapping by a full square meter exceeds `EPS`
and is indeed classified as intersecting. -/
theorem claim_C3_witness :
    EPS < interArea ⟨0, 2, 0, 2⟩ ⟨1, 3, 1, 3⟩
    ∧ rectIntersects ⟨0, 2, 0, 2⟩ ⟨1, 3, 1, 3⟩ = true := by
  have h : EPS < interArea ⟨0, 2, 0, 2⟩ ⟨1, 3, 1, 3⟩ := by
    norm_num [interArea, interLen, EPS, min_def, max_def]
  exact ⟨h, claim_C3_collision_iff_closed_intersection.2 _ _ h⟩

/-- C4, counterexample: `calculate_overall_score` rounds the final value to
three decimals, so at one collision and accessibility score 0.333 it returns
0.266 rather than the claim's exact product 0.2664. -/
theorem claim_C4_counterexample :
    calculateOverallScore 1 0 (333/1000)
      ≠ min 1 (max 0 ((333/1000 : ℚ) * (1 - min 1 (1/5)) * (1 - min 1 0))) := by
  have hrhs : min 1 (max 0 ((333/1000 : ℚ) * (1 - min 1 (1/5)) * (1 - min 1 0)))
      = 333/1250 := by
    norm_num [min_def, max_def]
  have hlhs : calculateOverallScore 1 0 (333/1000) = 133/500 := by
    show round3 (max 0 ((333/1000 : ℚ) * (1 - min 1 (((1 : ℕ) : ℚ) * (1/5)))
        * (1 - min 1 (((0 : ℕ) : ℚ) * (1/10))))) = 133/500
    have h1 : max (0 : ℚ) ((333/1000 : ℚ) * (1 - min 1 (((1 : ℕ) : ℚ) * (1/5)))
        * (1 - min 1 (((0 : ℕ) : ℚ) * (1/10)))) = 333/1250 := by
      norm_num [min_def, max_def]
    rw [h1]
    unfold round3
    have h2 : (1000 : ℚ) * (333/1250) = 1332/5 := by norm_num
    rw [h2]
    have hf : ⌊(1332/5 : ℚ)⌋ = 266 := by
      rw [Int.floor_eq_iff]
      constructor <;> norm_num
    have h3 : roundHalfEven (1332/5) = 266 := by
      unfold roundHalfEven
      rw [hf]
      norm_num
    rw [h3]
    norm_num
  rw [hlhs, hrhs]
  norm_num

/-- C4, amended: the overall score equals the claim's product formula
**rounded to three decimals** (Python `round`, half to even); the lower
clamp `max(0.0, ...)` is inert because the product is already non-negative,
and the score always lies in `[0, 1]` — in particular the accessibility
score produced by `analyze_accessibility` lies in `[0, 1]` for every
floor plan and layout. -/
theorem claim_C4_overall_score_rounded_and_bounded :
    (∀ (c n : ℕ) (base : ℚ), 0 ≤ base → base ≤ 1 →
        calculateOverallScore c n base
          = round3 (base * (1 - min 1 ((c : ℚ) * (1/5))) * (1 - min 1 ((n : ℚ) * (1/10))))
        ∧ 0 ≤ calculateOverallScore c n base ∧ calculateOverallScore c n base ≤ 1)
    ∧ (∀ (doors windows : List (ℚ × ℚ)) (furn : List RectQ) (walkable roomArea : ℚ),
        0 ≤ walkable → 0 < roomArea →
        0 ≤ accessibilityScore (doorAccessibility doors furn)
              (windowAccessibility windows furn) (flowEfficiency walkable roomArea)
        ∧ accessibilityScore (doorAccessibility doors furn)
              (windowAccessibility windows furn) (flowEfficiency walkable roomArea) ≤ 1) := by
  constructor
  · intro c n base h0 h1
    have hc0 : (0 : ℚ) ≤ (c : ℚ) * (1/5) := by positivity
    have hn0 : (0 : ℚ) ≤ (n : ℚ) * (1/10) := by positivity
    have hf1a : 0 ≤ 1 - min 1 ((c : ℚ) * (1/5)) := by
      have := min_le_left 1 ((c : ℚ) * (1/5)); linarith
    have hf1b : 1 - min 1 ((c : ℚ) * (1/5)) ≤ 1 := by
      have : (0 : ℚ) ≤ min 1 ((c : ℚ) * (1/5)) := le_min (by norm_num) hc0; linarith
    have hf2a : 0 ≤ 1 - min 1 ((n : ℚ) * (1/10)) := by
      have := min_le_left 1 ((n : ℚ) * (1/10)); linarith
    have hf2b : 1 - min 1 ((n : ℚ) * (1/10)) ≤ 1 := by
      have : (0 : ℚ) ≤ min 1 ((n : ℚ) * (1/10)) := le_min (by norm_num) hn0; linarith
    have hE0 : 0 ≤ base * (1 - min 1 ((c : ℚ) * (1/5))) * (1 - min 1 ((n : ℚ) * (1/10))) :=
      mul_nonneg (mul_nonneg h0 hf1a) hf2a
    have hE1 : base * (1 - min 1 ((c : ℚ) * (1/5))) * (1 - min 1 ((n : ℚ) * (1/10))) ≤ 1 :=
      mul_le_one₀ (mul_le_one₀ h1 hf1a hf1b) hf2a hf2b
    have heq : calculateOverallScore c n base
        = round3 (base * (1 - min 1 ((c : ℚ) * (1/5))) * (1 - min 1 ((n : ℚ) * (1/10)))) := by
      show round3 (max 0 (base * (1 - min 1 ((c : ℚ) * (1/5)))
          * (1 - min 1 ((n : ℚ) * (1/10))))) = _
      rw [max_eq_right hE0]
    refine ⟨heq, ?_, ?_⟩
    · rw [heq]; exact (round3_bounds hE0 hE1).1
    · rw [heq]; exact (round3_bounds hE0 hE1).2
  · intro doors windows furn walkable roomArea hw hr
    exact accessibilityScore_bounds (doorAccessibility_bounds _ _)
      (windowAccessibility_bounds _ _) (flowEfficiency_bounds hw hr)

/-- Witness for C4: with no collisions, no clearance issues and a perfect
accessibility score the overall score is the rounded product and lies in
`[0, 1]`; and the accessibility score of an empty floor plan is bounded. -/
theorem claim_C4_witness :
    (calculateOverallScore 0 0 1
        = round3 (1 * (1 - min 1 (((0 : ℕ) : ℚ) * (1/5))) * (1 - min 1 (((0 : ℕ) : ℚ) * (1/10))))
      ∧ 0 ≤ calculateOverallScore 0 0 1 ∧ calculateOverallScore 0 0 1 ≤ 1)
    ∧ (0 ≤ accessibilityScore (doorAccessibility [] []) (windowAccessibility [] [])
          (flowEfficiency 0 1)
      ∧ accessibilityScore (doorAccessibility [] []) (windowAccessibility [] [])
          (flowEfficiency 0 1) ≤ 1) :=
  ⟨claim_C4_overall_score_rounded_and_bounded.1 0 0 1 (by norm_num) (by norm_num),
    claim_C4_overall_score_rounded_and_bounded.2 [] [] [] 0 1 (by norm_num) (by norm_num)⟩

/-- C6, counterexample: `analyze_accessibility` measures the distance from
the door point to the furniture **polygon**, not to its centroid.  A 2 m ×
0.4 m footprint whose edge touches the door at the origin is marked
blocking although its centroid is a full meter away (beyond 80 cm), so the
claim's centroid criterion is false. -/
theorem claim_C6_counterexample :
    blockedBy 0 0 (16/25) [⟨0, 2, -(1/5), 1/5⟩] = true
    ∧ blockedByCentroidSpec 0 0 (16/25) [⟨0, 2, -(1/5), 1/5⟩] = false := by
  constructor
  · simp only [blockedBy, List.any_cons, List.any_nil, Bool.or_false, decide_eq_true_eq]
    norm_num [pointRectDistSq, min_def, max_def]
  · simp only [blockedByCentroidSpec, List.any_cons, List.any_nil, Bool.or_false,
      decide_eq_false_iff_not]
    norm_num [pointDistSq, rectCenter]

/-- C6, amended: a door is marked blocked iff some placement's **footprint**
is within 80 cm of the door point (squared distance below 0.64 m²), and a
window iff some footprint is within 60 cm (squared distance below 0.36 m²);
the loop with early break of `analyze_accessibility` is exactly this
existential. -/
theorem claim_C6_blocked_iff_footprint_close :
    ∀ (px py : ℚ) (furniture : List RectQ),
      (blockedBy px py (16/25) furniture = true
        ↔ ∃ r ∈ furniture, pointRectDistSq px py r < 16/25)
    ∧ (blockedBy px py (9/25) furniture = true
        ↔ ∃ r ∈ furniture, pointRectDistSq px py r < 9/25) := by
  intro px py furn
  constructor <;> simp [blockedBy, List.any_eq_true]

/-- Witness for C6: with no furniture, neither a door nor a window is
blocked. -/
theorem claim_C6_witness :
    (blockedBy 0 0 (16/25) [] = true ↔ ∃ r ∈ ([] : List RectQ), pointRectDistSq 0 0 r < 16/25)
    ∧ (blockedBy 0 0 (9/25) [] = true ↔ ∃ r ∈ ([] : List RectQ), pointRectDistSq 0 0 r < 9/25) :=
  claim_C6_blocked_iff_footprint_close 0 0 []

/-- C5, counterexample: the cell `(0, 0)` of a 1 m × 1 m room with no
furniture gets value `-1` although its sample point `(0, 0)` lies on the
room polygon (in the closed room), not outside it: shapely's `contains` is
strict, so boundary sample points are treated as outside. -/
theorem claim_C5_counterexample :
    heatCell ⟨0, 0, 1, 1⟩ [] 0 0 = -1
    ∧ inRoomClosed ⟨0, 0, 1, 1⟩ (0 + ((0 : ℕ) : ℚ) * (1/5)) (0 + ((0 : ℕ) : ℚ) * (1/5)) := by
  constructor
  · norm_num [heatCell, inRoomOpen]
  · norm_num [inRoomClosed]

/-- C5, amended: every heatmap cell value lies in `{-1} ∪ [0, 1]`; a cell is
`-1` iff its sample point is **not strictly inside** the room polygon
(boundary points included, since shapely `contains` is strict); and for
inside cells with squared nearest-furniture distance `dsq` the value is `0`
when `dsq < 0.09` (distance below 0.3 m), `1` when `dsq > 2.25` (distance
above 1.5 m), and the linear band `(√dsq − 0.3)/1.2` otherwise. -/
theorem claim_C5_heatmap_values :
    ∀ (b : BoundsQ) (furniture : List RectQ) (i j : ℕ),
      (heatCell b furniture i j = -1
        ∨ (0 ≤ heatCell b furniture i j ∧ heatCell b furniture i j ≤ 1))
    ∧ (heatCell b furniture i j = -1
        ↔ ¬ inRoomOpen b (b.minX + (j : ℚ) * (1/5)) (b.minY + (i : ℚ) * (1/5)))
    ∧ (∀ dsq : ℚ,
        inRoomOpen b (b.minX + (j : ℚ) * (1/5)) (b.minY + (i : ℚ) * (1/5)) →
        minDistSqTo (b.minX + (j : ℚ) * (1/5), b.minY + (i : ℚ) * (1/5)) furniture
          = some dsq →
          (dsq < 9/100 → heatCell b furniture i j = 0)
        ∧ (9/4 < dsq → heatCell b furniture i j = 1)
        ∧ (9/100 ≤ dsq → dsq ≤ 9/4 →
            heatCell b furniture i j = (Real.sqrt (dsq : ℝ) - 3/10) / (6/5))) := by
  intro b furn i j
  by_cases hin : inRoomOpen b (b.minX + (j : ℚ) * (1/5)) (b.minY + (i : ℚ) * (1/5))
  · have hval : heatCell b furn i j
        = heatValue (minDistSqTo
            (b.minX + (j : ℚ) * (1/5), b.minY + (i : ℚ) * (1/5)) furn) := by
      simp only [heatCell]
      rw [if_pos hin]
    refine ⟨Or.inr (by rw [hval]; exact heatValue_bounds _), ?_, ?_⟩
    · rw [hval]
      constructor
      · intro h
        exact absurd h (heatValue_ne_neg_one _)
      · intro h
        exact absurd hin h
    · intro dsq _ hmd
      rw [hval, hmd]
      refine ⟨?_, ?_, ?_⟩
      · intro h
        simp only [heatValue]
        rw [if_pos h]
      · intro h
        simp only [heatValue]
        rw [if_neg (by linarith), if_pos h]
      · intro h1 h2
        simp only [heatValue]
        rw [if_neg (by linarith), if_neg (by linarith)]
  · have hval : heatCell b furn i j = -1 := by
      simp only [heatCell]
      rw [if_neg hin]
    refine ⟨Or.inl hval, ⟨fun _ => hin, fun _ => hval⟩, ?_⟩
    intro dsq h
    exact absurd h hin

/-- Witness for C5: the interior cell `(1, 1)` of the empty 1 m × 1 m room
satisfies all three parts of the amended heatmap characterization. -/
theorem claim_C5_witness :
    (heatCell ⟨0, 0, 1, 1⟩ [] 1 1 = -1
      ∨ (0 ≤ heatCell ⟨0, 0, 1, 1⟩ [] 1 1 ∧ heatCell ⟨0, 0, 1, 1⟩ [] 1 1 ≤ 1))
    ∧ (heatCell ⟨0, 0, 1, 1⟩ [] 1 1 = -1
      ↔ ¬ inRoomOpen ⟨0, 0, 1, 1⟩ (0 + ((1 : ℕ) : ℚ) * (1/5)) (0 + ((1 : ℕ) : ℚ) * (1/5)))
    ∧ (∀ dsq : ℚ,
        inRoomOpen ⟨0, 0, 1, 1⟩ (0 + ((1 : ℕ) : ℚ) * (1/5)) (0 + ((1 : ℕ) : ℚ) * (1/5)) →
        minDistSqTo (0 + ((1 : ℕ) : ℚ) * (1/5), 0 + ((1 : ℕ) : ℚ) * (1/5)) [] = some dsq →
          (dsq < 9/100 → heatCell ⟨0, 0, 1, 1⟩ [] 1 1 = 0)
        ∧ (9/4 < dsq → heatCell ⟨0, 0, 1, 1⟩ [] 1 1 = 1)
        ∧ (9/100 ≤ dsq → dsq ≤ 9/4 →
            heatCell ⟨0, 0, 1, 1⟩ [] 1 1 = (Real.sqrt (dsq : ℝ) - 3/10) / (6/5))) :=
  claim_C5_heatmap_values ⟨0, 0, 1, 1⟩ [] 1 1

/-- C1, counterexample: a feasible solver assignment — two 228 cm × 96 cm
items side by side, touching at `x = 228` cm, satisfying every boundary,
non-overlap, clearance, door, window and functional constraint — whose
extracted footprints the validator reports as a (zero-area) collision pair:
the round-trip collision list is not empty. -/
theorem claim_C1_counterexample :
    solverFeasible 250 200 40 30 [] [] touchingCfg = true
    ∧ checkCollisionPairs (extractedFootprints touchingCfg) ≠ [] := by
  constructor
  · decide
  · decide

/-- C1, amended: for items whose width and depth are even numbers of
centimeters (exact on the 2 cm grid), every collision pair the validator
reports on a feasible solver solution's extracted footprints has overlap
area 0 — the solver's grid separation excludes interior overlap, but the
collision list itself may be non-empty because touching footprints are
reported (and for odd dimensions the floor division `width_cm // 2` loses up
to 1 cm, which can even create positive overlap). -/
theorem claim_C1_roundtrip_amended :
    ∀ (gw gh dcGrid waGrid : ℕ) (doors windows : List (ℕ × ℕ)) (cfg : List SolverAssign),
      (∀ a ∈ cfg, 2 ∣ a.item.width_cm ∧ 2 ∣ a.item.depth_cm) →
      solverFeasible gw gh dcGrid waGrid doors windows cfg = true →
      ∀ p ∈ checkCollisionPairs (extractedFootprints cfg), overlapArea p = 0 := by
  intro gw gh dc wa doors windows cfg heven hfeas p hp
  simp only [solverFeasible, Bool.and_eq_true] at hfeas
  obtain ⟨⟨⟨⟨⟨⟨hall, hno⟩, hcl⟩, hdo⟩, hwi⟩, hdcp⟩, htvp⟩ := hfeas
  have hpw : List.Pairwise (fun a b => nonOverlapOk a b = true) cfg :=
    (pairsAllB_iff_pairwise _ _).mp hno
  have hpwf : List.Pairwise (fun a b => nonOverlapOk a b = true)
      (cfg.filter (fun a => a.placed)) :=
    hpw.sublist (List.filter_sublist cfg)
  have hp1 : p ∈ allPairs (extractedFootprints cfg) := (List.mem_filter.mp hp).1
  obtain ⟨q, hq, rfl⟩ := mem_allPairs_map
    (fun a : SolverAssign =>
      (⟨((2 * a.x : ℕ) : ℚ), ((2 * a.x + (rotDimsCm a.item a.rot).1 : ℕ) : ℚ),
        ((2 * a.y : ℕ) : ℚ), ((2 * a.y + (rotDimsCm a.item a.rot).2 : ℕ) : ℚ)⟩ : RectQ))
    (cfg.filter (fun a => a.placed)) p hp1
  have hrel : nonOverlapOk q.1 q.2 = true :=
    (pairwise_iff_allPairs _ _).mp hpwf q hq
  have hmem := mem_of_mem_allPairs q hq
  have hq1p : q.1.placed = true := by
    have := (List.mem_filter.mp hmem.1).2
    simpa using this
  have hq2p : q.2.placed = true := by
    have := (List.mem_filter.mp hmem.2).2
    simpa using this
  have he1 := heven q.1 (List.mem_of_mem_filter hmem.1)
  have he2 := heven q.2 (List.mem_of_mem_filter hmem.2)
  have hw1 : 2 ∣ (rotDimsCm q.1.item q.1.rot).1 := by
    unfold rotDimsCm
    split
    · exact he1.2
    · exact he1.1
  have hh1 : 2 ∣ (rotDimsCm q.1.item q.1.rot).2 := by
    unfold rotDimsCm
    split
    · exact he1.1
    · exact he1.2
  have hw2 : 2 ∣ (rotDimsCm q.2.item q.2.rot).1 := by
    unfold rotDimsCm
    split
    · exact he2.2
    · exact he2.1
  have hh2 : 2 ∣ (rotDimsCm q.2.item q.2.rot).2 := by
    unfold rotDimsCm
    split
    · exact he2.1
    · exact he2.2
  simp only [nonOverlapOk, hq1p, hq2p, Bool.and_self, Bool.not_true, Bool.false_or,
    Bool.or_eq_true, decide_eq_true_eq] at hrel
  show interArea _ _ = 0
  rcases hrel with ((h | h) | h) | h
  · apply interArea_eq_zero_of_sepX
    left
    show ((2 * q.1.x + (rotDimsCm q.1.item q.1.rot).1 : ℕ) : ℚ) ≤ ((2 * q.2.x : ℕ) : ℚ)
    have hnat : 2 * q.1.x + (rotDimsCm q.1.item q.1.rot).1 ≤ 2 * q.2.x := by
      obtain ⟨k, hk⟩ := hw1
      rw [hk, Nat.mul_div_cancel_left k (by norm_num)] at h
      rw [hk]
      omega
    exact_mod_cast hnat
  · apply interArea_eq_zero_of_sepX
    right
    show ((2 * q.2.x + (rotDimsCm q.2.item q.2.rot).1 : ℕ) : ℚ) ≤ ((2 * q.1.x : ℕ) : ℚ)
    have hnat : 2 * q.2.x + (rotDimsCm q.2.item q.2.rot).1 ≤ 2 * q.1.x := by
      obtain ⟨k, hk⟩ := hw2
      rw [hk, Nat.mul_div_cancel_left k (by norm_num)] at h
      rw [hk]
      omega
    exact_mod_cast hnat
  · apply interArea_eq_zero_of_sepY
    left
    show ((2 * q.1.y + (rotDimsCm q.1.item q.1.rot).2 : ℕ) : ℚ) ≤ ((2 * q.2.y : ℕ) : ℚ)
    have hnat : 2 * q.1.y + (rotDimsCm q.1.item q.1.rot).2 ≤ 2 * q.2.y := by
      obtain ⟨k, hk⟩ := hh1
      rw [hk, Nat.mul_div_cancel_left k (by norm_num)] at h
      rw [hk]
      omega
    exact_mod_cast hnat
  · apply interArea_eq_zero_of_sepY
    right
    show ((2 * q.2.y + (rotDimsCm q.2.item q.2.rot).2 : ℕ) : ℚ) ≤ ((2 * q.1.y : ℕ) : ℚ)
    have hnat : 2 * q.2.y + (rotDimsCm q.2.item q.2.rot).2 ≤ 2 * q.1.y := by
      obtain ⟨k, hk⟩ := hh2
      rw [hk, Nat.mul_div_cancel_left k (by norm_num)] at h
      rw [hk]
      omega
    exact_mod_cast hnat

/-- Witness for C1: two even-dimension 1 m × 1 m items placed 1 m apart form
a feasible assignment, and every collision pair the validator reports on
their extracted footprints (here: the touching pair) has zero overlap
area. -/
theorem claim_C1_witness :
    (∀ a ∈ evenDimCfg, 2 ∣ a.item.width_cm ∧ 2 ∣ a.item.depth_cm)
    ∧ solverFeasible 250 200 40 30 [] [] evenDimCfg = true
    ∧ ∀ p ∈ checkCollisionPairs (extractedFootprints evenDimCfg), overlapArea p = 0 :=
  ⟨by decide, by decide,
    claim_C1_roundtrip_amended 250 200 40 30 [] [] evenDimCfg (by decide) (by decide)⟩

end InteriorDesigner
